import Mathlib

/-!
Verification of the chat synchronization core of `src/screens/chat/ChatScreen.js`.

The source is a React Native screen; the parts with semantic content are the
four handlers `handleReceiveMessage`, `handleMessageStatusUpdated`,
`fetchMessages` and `sendMessage`.  We embed them as pure functions over an
explicit state: React's `setMessages` / `setIsLoading` updates become explicit
state passing, `socket.emit` calls become a returned list of outbound events,
and the asynchronous fetch is modelled by passing its resolved result
(`FetchResult`) to the continuation that the source runs once the promise
settles.  Message status strings come from the closed set
{sent, delivered, read} described by the History Store interface.
-/

namespace Chat

/-- Delivery status of a message, the closed set used by the protocol
(`'sent'`, `'delivered'`, `'read'` strings in the source). -/
inductive Status where
  | sent
  | delivered
  | read
deriving DecidableEq, Repr

/-- Numeric height of a status in the lattice sent < delivered < read. -/
def statusVal : Status → Nat
  | Status.sent => 0
  | Status.delivered => 1
  | Status.read => 2

/-- A message as the source consumes it: `_id`, `senderId._id`,
`receiverId._id`, `text`, `createdAt`, `status`.  The nested populated user
objects are flattened to the identifier strings the source actually compares. -/
structure Message where
  id : String
  senderId : String
  receiverId : String
  text : String
  createdAt : Nat
  status : Status
deriving DecidableEq, Repr

/-- Helper to build a concrete message. -/
def mkMsg (id senderId receiverId text : String) (createdAt : Nat)
    (status : Status) : Message :=
  { id := id, senderId := senderId, receiverId := receiverId, text := text,
    createdAt := createdAt, status := status }

/-- Outbound events emitted on the socket by the source
(`socket.emit('updateMessageStatus', ...)` and `socket.emit('sendMessage', ...)`). -/
inductive OutEvent where
  | updateMessageStatus (messageId : String) (status : Status)
  | sendMessage (senderId receiverId text : String)
deriving DecidableEq, Repr

/-- The component state the claims are about: the `messages` array and the
`isLoading` flag. -/
structure ChatState where
  messages : List Message
  isLoading : Bool
deriving DecidableEq, Repr

/-- Embedding of `handleReceiveMessage` (ChatScreen.js lines 37-45): if the message's sender
or receiver is the active peer (`receiverId` route param), append it to the
timeline and, when the message is addressed to the session user, emit a
`delivered` status update; otherwise do nothing.  Returns the new timeline and
the emitted events. -/
def handleReceiveMessage (receiverId userId : String) (prev : List Message)
    (message : Message) : List Message × List OutEvent :=
  if message.senderId = receiverId ∨ message.receiverId = receiverId then
    (prev ++ [message],
      if message.receiverId = userId then
        [OutEvent.updateMessageStatus message.id Status.delivered]
      else [])
  else
    (prev, [])

/-- Embedding of `handleMessageStatusUpdated` (ChatScreen.js lines 48-52): map over the
timeline, replacing the status of every entry whose identifier matches. -/
def handleMessageStatusUpdated (messageId : String) (status : Status)
    (prev : List Message) : List Message :=
  prev.map fun msg => if msg.id = messageId then { msg with status := status } else msg

/-- Result of the history fetch as the source observes it: a parsed JSON array
on success, a non-ok HTTP response, or a thrown transport/parse error. -/
inductive FetchResult where
  | ok (data : List Message)
  | httpError (code : Nat)
  | transportError
deriving DecidableEq, Repr

/-- Everything observable after `fetchMessages` settles: the component state,
the events emitted on the socket, and whether the catch branch logged an error. -/
structure FetchOutcome where
  state : ChatState
  emitted : List OutEvent
  errorLogged : Bool
deriving DecidableEq, Repr

/-- The mark-as-read side effect of `fetchMessages` (ChatScreen.js lines
80-84): for each fetched message whose receiver is the stored user id and whose
status is not `read`, emit a `read` status update, in fetch order. -/
def readEmits (senderId : String) (data : List Message) : List OutEvent :=
  (data.filter fun m => m.receiverId == senderId && m.status != Status.read).map
    fun m => OutEvent.updateMessageStatus m.id Status.read

/-- Embedding of `fetchMessages` (ChatScreen.js lines 63-91), from the point its fetch
settles.  On success: `setMessages(data)` replaces the timeline,
`setIsLoading(false)`, then the `readEmits` status updates are emitted.
On a non-ok response or a thrown error, the catch branch logs the error and
clears the loading flag; the timeline is untouched. -/
def fetchMessages (senderId : String) (st : ChatState) (result : FetchResult) :
    FetchOutcome :=
  match result with
  | FetchResult.ok data =>
      { state := { messages := data, isLoading := false },
        emitted := readEmits senderId data,
        errorLogged := false }
  | FetchResult.httpError _ =>
      { state := { st with isLoading := false }, emitted := [], errorLogged := true }
  | FetchResult.transportError =>
      { state := { st with isLoading := false }, emitted := [], errorLogged := true }

/-- JS `String.prototype.trim` as the source applies it to the input field:
strip leading and trailing whitespace.  Implemented by structural recursion
over the character list so that concrete inputs evaluate. -/
def trim (s : String) : String :=
  ⟨((s.data.dropWhile Char.isWhitespace).reverse.dropWhile Char.isWhitespace).reverse⟩

/-- Embedding of `sendMessage` (ChatScreen.js lines 93-104): if the input trims to the empty
string, return without emitting; otherwise emit one `sendMessage` event with
the user id, the peer id and the trimmed text, and clear the input field.
Returns the emitted events and the new input-field value. -/
def sendMessage (inputMessage userId receiverId : String) :
    List OutEvent × String :=
  if trim inputMessage = "" then ([], inputMessage)
  else ([OutEvent.sendMessage userId receiverId (trim inputMessage)], "")

/-- Spec ordering on messages (section 3 / 4.2 of the spec): creation timestamp
ascending, identifier ascending on tie. -/
def messageLE (a b : Message) : Prop :=
  a.createdAt < b.createdAt ∨ (a.createdAt = b.createdAt ∧ a.id ≤ b.id)

instance : DecidableRel messageLE := fun a b =>
  decidable_of_iff
    (a.createdAt < b.createdAt ∨ (a.createdAt = b.createdAt ∧ a.id ≤ b.id)) Iff.rfl

/-- The spec's timeline ordering invariant: consecutive entries are ordered by
`messageLE`. -/
def timelineSorted (l : List Message) : Prop :=
  l.Chain' messageLE

/-- Claim C5: `sendMessage` rejects locally when the input trims to empty,
emitting nothing and leaving the input intact; otherwise it emits exactly one
send event carrying the sender id, the receiver id and the trimmed text, and
clears the input. -/
theorem sendMessage_spec (inputMessage userId receiverId : String) :
    (trim inputMessage = "" →
      sendMessage inputMessage userId receiverId = ([], inputMessage)) ∧
    (trim inputMessage ≠ "" →
      sendMessage inputMessage userId receiverId =
        ([OutEvent.sendMessage userId receiverId (trim inputMessage)], "")) := by
  constructor
  · intro h
    unfold sendMessage
    rw [if_pos h]
  · intro h
    unfold sendMessage
    rw [if_neg h]

/-- Witness for C5 at blank and non-blank inputs. -/
theorem sendMessage_spec_witness :
    sendMessage "   " "u" "r" = ([], "   ") ∧
    sendMessage " hi " "u" "r" = ([OutEvent.sendMessage "u" "r" "hi"], "") := by
  have h1 := (sendMessage_spec "   " "u" "r").1 (by decide)
  have h2 := (sendMessage_spec " hi " "u" "r").2 (by decide)
  have ht : trim " hi " = "hi" := by decide
  rw [ht] at h2
  exact ⟨h1, h2⟩

/-- Claim C7: a status-updated event whose message identifier is absent from
the timeline leaves the timeline completely unchanged. -/
theorem statusUpdated_absent_noop (messageId : String) (status : Status)
    (prev : List Message) (habs : ∀ m ∈ prev, m.id ≠ messageId) :
    handleMessageStatusUpdated messageId status prev = prev := by
  have h : ∀ m ∈ prev,
      (if m.id = messageId then { m with status := status } else m) = m := by
    intro m hm
    simp [habs m hm]
  unfold handleMessageStatusUpdated
  rw [List.map_congr_left h]
  simp

/-- Witness for C7 on a one-element timeline with a foreign identifier. -/
theorem statusUpdated_absent_noop_witness :
    handleMessageStatusUpdated "zz" Status.read
        [mkMsg "m1" "a" "b" "t" 0 Status.sent] =
      [mkMsg "m1" "a" "b" "t" 0 Status.sent] :=
  statusUpdated_absent_noop "zz" Status.read
    [mkMsg "m1" "a" "b" "t" 0 Status.sent] (by decide)

/-- Claim C10: a status-updated event for a present identifier preserves the
timeline's length and order pointwise; every entry with a different identifier
is unchanged, and a matching entry changes in no field but its status. -/
theorem statusUpdated_frame (messageId : String) (status : Status)
    (prev : List Message) (hpres : ∃ m ∈ prev, m.id = messageId) :
    (handleMessageStatusUpdated messageId status prev).length = prev.length ∧
    (∀ i : Nat, (handleMessageStatusUpdated messageId status prev)[i]? =
      (prev[i]?).map fun m =>
        if m.id = messageId then { m with status := status } else m) ∧
    (∀ m ∈ prev, m.id ≠ messageId →
      m ∈ handleMessageStatusUpdated messageId status prev) := by
  refine ⟨by simp [handleMessageStatusUpdated], fun i => ?_, fun m hm hne => ?_⟩
  · simp [handleMessageStatusUpdated]
  · unfold handleMessageStatusUpdated
    have : (if m.id = messageId then { m with status := status } else m) = m := by
      simp [hne]
    exact this ▸ List.mem_map_of_mem _ hm

/-- Witness for C10 on a two-element timeline containing the identifier. -/
theorem statusUpdated_frame_witness :
    (handleMessageStatusUpdated "m1" Status.read
        [mkMsg "m1" "a" "b" "t" 0 Status.sent,
         mkMsg "m2" "a" "b" "u" 1 Status.sent]).length = 2 :=
  (statusUpdated_frame "m1" Status.read
    [mkMsg "m1" "a" "b" "t" 0 Status.sent, mkMsg "m2" "a" "b" "u" 1 Status.sent]
    ⟨mkMsg "m1" "a" "b" "t" 0 Status.sent, by decide, by decide⟩).1

/-- Claim C8: a message-received event is applied exactly when the message's
sender or receiver is the active peer: otherwise the handler returns the
timeline unchanged and emits nothing; when it matches, the message is inserted
(the timeline grows by one and contains it). -/
theorem receiveMessage_pair_filter (receiverId userId : String)
    (prev : List Message) (message : Message) :
    (message.senderId ≠ receiverId ∧ message.receiverId ≠ receiverId →
      handleReceiveMessage receiverId userId prev message = (prev, [])) ∧
    ((message.senderId = receiverId ∨ message.receiverId = receiverId) →
      (handleReceiveMessage receiverId userId prev message).1.length =
          prev.length + 1 ∧
      message ∈ (handleReceiveMessage receiverId userId prev message).1) := by
  constructor
  · intro h
    have hn : ¬ (message.senderId = receiverId ∨ message.receiverId = receiverId) := by
      rintro (hc | hc)
      · exact h.1 hc
      · exact h.2 hc
    unfold handleReceiveMessage
    rw [if_neg hn]
  · intro h
    unfold handleReceiveMessage
    rw [if_pos h]
    constructor
    · simp
    · simp

/-- Witness for C8: a foreign message is ignored, a matching one is inserted. -/
theorem receiveMessage_pair_filter_witness :
    handleReceiveMessage "peer" "self" []
        (mkMsg "m1" "x" "y" "t" 0 Status.sent) = ([], []) ∧
    mkMsg "m2" "peer" "self" "t" 0 Status.sent ∈
      (handleReceiveMessage "peer" "self" []
        (mkMsg "m2" "peer" "self" "t" 0 Status.sent)).1 :=
  ⟨(receiveMessage_pair_filter "peer" "self" []
      (mkMsg "m1" "x" "y" "t" 0 Status.sent)).1 (by decide),
   ((receiveMessage_pair_filter "peer" "self" []
      (mkMsg "m2" "peer" "self" "t" 0 Status.sent)).2 (by decide)).2⟩

/-- Claim C9: when the history load fails (non-ok response or thrown transport
error), the timeline is exactly what it was, nothing is emitted, the loading
flag is cleared, and the error is reported (logged) as a distinct signal. -/
theorem fetchMessages_failure (senderId : String) (st : ChatState)
    (result : FetchResult) (hfail : ∀ data, result ≠ FetchResult.ok data) :
    (fetchMessages senderId st result).state.messages = st.messages ∧
    (fetchMessages senderId st result).state.isLoading = false ∧
    (fetchMessages senderId st result).emitted = [] ∧
    (fetchMessages senderId st result).errorLogged = true := by
  cases result with
  | ok data => exact absurd rfl (hfail data)
  | httpError code => exact ⟨rfl, rfl, rfl, rfl⟩
  | transportError => exact ⟨rfl, rfl, rfl, rfl⟩

/-- Witness for C9 on a transport failure with one live message accumulated. -/
theorem fetchMessages_failure_witness :
    (fetchMessages "self"
        { messages := [mkMsg "live1" "peer" "self" "t" 3 Status.sent],
          isLoading := true }
        FetchResult.transportError).state.messages =
      [mkMsg "live1" "peer" "self" "t" 3 Status.sent] :=
  (fetchMessages_failure "self"
    { messages := [mkMsg "live1" "peer" "self" "t" 3 Status.sent],
      isLoading := true }
    FetchResult.transportError (by intro data; simp)).1

/-- Helper: `readEmits` emits nothing for an identifier carried by no message
of the fetched list. -/
theorem count_readEmits_zero (senderId mid : String) (l : List Message)
    (h : ∀ y ∈ l, y.id ≠ mid) :
    (readEmits senderId l).count (OutEvent.updateMessageStatus mid Status.read) = 0 := by
  induction l with
  | nil => rfl
  | cons y ys ih =>
      have hy : y.id ≠ mid := h y (List.mem_cons_self y ys)
      have hys : ∀ z ∈ ys, z.id ≠ mid := fun z hz => h z (List.mem_cons_of_mem y hz)
      by_cases hp : (y.receiverId == senderId && y.status != Status.read) = true
      · have : readEmits senderId (y :: ys) =
            OutEvent.updateMessageStatus y.id Status.read :: readEmits senderId ys := by
          simp [readEmits, List.filter_cons, hp]
        rw [this, List.count_cons]
        simp [hy, ih hys]
      · have : readEmits senderId (y :: ys) = readEmits senderId ys := by
          simp [readEmits, List.filter_cons, hp]
        rw [this]
        exact ih hys

/-- Claim C6: on a successful history load with distinct message identifiers,
exactly one `read` status update is emitted for each fetched message addressed
to the session identity whose status is below `read`, and none for any other
fetched message. -/
theorem fetchMessages_markRead (senderId : String) (st : ChatState)
    (data : List Message) (hnodup : (data.map Message.id).Nodup)
    (m : Message) (hm : m ∈ data) :
    ((fetchMessages senderId st (FetchResult.ok data)).emitted).count
        (OutEvent.updateMessageStatus m.id Status.read) =
      if m.receiverId = senderId ∧ m.status ≠ Status.read then 1 else 0 := by
  show (readEmits senderId data).count
      (OutEvent.updateMessageStatus m.id Status.read) = _
  induction data with
  | nil => exact absurd hm (List.not_mem_nil m)
  | cons x xs ih =>
      rw [List.map_cons, List.nodup_cons] at hnodup
      rcases List.mem_cons.1 hm with hmx | hmxs
      · subst hmx
        have hzero : (readEmits senderId xs).count
            (OutEvent.updateMessageStatus m.id Status.read) = 0 := by
          refine count_readEmits_zero senderId m.id xs fun y hy hyeq => ?_
          exact hnodup.1 (hyeq ▸ List.mem_map_of_mem Message.id hy)
        by_cases hp : (m.receiverId == senderId && m.status != Status.read) = true
        · have hrw : readEmits senderId (m :: xs) =
              OutEvent.updateMessageStatus m.id Status.read :: readEmits senderId xs := by
            simp [readEmits, List.filter_cons, hp]
          have hcond : m.receiverId = senderId ∧ m.status ≠ Status.read := by
            simpa using hp
          rw [hrw, List.count_cons, hzero, if_pos hcond]
          simp
        · have hrw : readEmits senderId (m :: xs) = readEmits senderId xs := by
            simp [readEmits, List.filter_cons, hp]
          have hcond : ¬ (m.receiverId = senderId ∧ m.status ≠ Status.read) := by
            simpa using hp
          rw [hrw, hzero, if_neg hcond]
      · have hxm : x.id ≠ m.id := fun hxeq =>
          hnodup.1 (hxeq ▸ List.mem_map_of_mem Message.id hmxs)
        have htail : (readEmits senderId xs).count
            (OutEvent.updateMessageStatus m.id Status.read) =
            if m.receiverId = senderId ∧ m.status ≠ Status.read then 1 else 0 :=
          ih hnodup.2 hmxs
        by_cases hp : (x.receiverId == senderId && x.status != Status.read) = true
        · have hrw : readEmits senderId (x :: xs) =
              OutEvent.updateMessageStatus x.id Status.read :: readEmits senderId xs := by
            simp [readEmits, List.filter_cons, hp]
          rw [hrw, List.count_cons, htail]
          simp [hxm]
        · have hrw : readEmits senderId (x :: xs) = readEmits senderId xs := by
            simp [readEmits, List.filter_cons, hp]
          rw [hrw, htail]

/-- Witness for C6 on a two-message fetch: the unread message addressed to the
session user is marked read exactly once; the message the user sent is not. -/
theorem fetchMessages_markRead_witness :
    ((fetchMessages "self" { messages := [], isLoading := true }
        (FetchResult.ok
          [mkMsg "m1" "peer" "self" "a" 1 Status.delivered,
           mkMsg "m2" "self" "peer" "b" 2 Status.sent])).emitted).count
        (OutEvent.updateMessageStatus "m1" Status.read) = 1 ∧
    ((fetchMessages "self" { messages := [], isLoading := true }
        (FetchResult.ok
          [mkMsg "m1" "peer" "self" "a" 1 Status.delivered,
           mkMsg "m2" "self" "peer" "b" 2 Status.sent])).emitted).count
        (OutEvent.updateMessageStatus "m2" Status.read) = 0 := by
  have h1 := fetchMessages_markRead "self" { messages := [], isLoading := true }
    [mkMsg "m1" "peer" "self" "a" 1 Status.delivered,
     mkMsg "m2" "self" "peer" "b" 2 Status.sent] (by decide)
    (mkMsg "m1" "peer" "self" "a" 1 Status.delivered) (by decide)
  have h2 := fetchMessages_markRead "self" { messages := [], isLoading := true }
    [mkMsg "m1" "peer" "self" "a" 1 Status.delivered,
     mkMsg "m2" "self" "peer" "b" 2 Status.sent] (by decide)
    (mkMsg "m2" "self" "peer" "b" 2 Status.sent) (by decide)
  rw [if_pos (by decide)] at h1
  rw [if_neg (by decide)] at h2
  exact ⟨h1, h2⟩

/-- Counterexample to C1: the history fetch replaces the timeline instead of
merging; a live-received message whose identifier is absent from the fetched
history is dropped. -/
theorem fetch_drops_live_counterexample :
    (fetchMessages "self"
        { messages := [mkMsg "live1" "peer" "self" "live" 10 Status.sent],
          isLoading := true }
        (FetchResult.ok [mkMsg "h1" "self" "peer" "old" 1 Status.read])).state.messages =
      [mkMsg "h1" "self" "peer" "old" 1 Status.read] ∧
    ¬ (∃ m ∈ (fetchMessages "self"
        { messages := [mkMsg "live1" "peer" "self" "live" 10 Status.sent],
          isLoading := true }
        (FetchResult.ok [mkMsg "h1" "self" "peer" "old" 1 Status.read])).state.messages,
        m.id = "live1") := by decide

/-- C1 amended: when the history fetch resolves, the fetched list replaces the
timeline wholesale — the result is exactly the fetched history, and any
live-received message whose identifier does not occur in the fetch is gone. -/
theorem fetch_replaces_timeline (senderId : String) (st : ChatState)
    (data : List Message) :
    (fetchMessages senderId st (FetchResult.ok data)).state.messages = data ∧
    ∀ m ∈ st.messages, m.id ∉ data.map Message.id →
      ∀ m2 ∈ (fetchMessages senderId st (FetchResult.ok data)).state.messages,
        m2.id ≠ m.id := by
  refine ⟨rfl, ?_⟩
  intro m hm hnot m2 hm2 heq
  exact hnot (heq ▸ List.mem_map_of_mem Message.id hm2)

/-- Witness for C1 amended: one live message, disjoint fetched history. -/
theorem fetch_replaces_timeline_witness :
    (fetchMessages "self"
        { messages := [mkMsg "live2" "peer" "self" "x" 9 Status.sent],
          isLoading := true }
        (FetchResult.ok [mkMsg "h2" "self" "peer" "y" 2 Status.read])).state.messages =
      [mkMsg "h2" "self" "peer" "y" 2 Status.read] :=
  (fetch_replaces_timeline "self"
    { messages := [mkMsg "live2" "peer" "self" "x" 9 Status.sent],
      isLoading := true }
    [mkMsg "h2" "self" "peer" "y" 2 Status.read]).1

/-- Counterexample to C2: a status-updated event carrying a status lower than
the current one overwrites it — the `read` message regresses to `sent`. -/
theorem status_regression_counterexample :
    (handleMessageStatusUpdated "m1" Status.sent
        [mkMsg "m1" "peer" "self" "t" 1 Status.read]).map Message.status =
      [Status.sent] ∧
    statusVal Status.sent < statusVal Status.read := by decide

/-- C2 amended: a status-updated event replaces the status of every matching
entry with the proposed status unconditionally — the result is the proposed
status, not the maximum of current and proposed. -/
theorem statusUpdated_overwrites (messageId : String) (status : Status)
    (prev : List Message) :
    ∀ m ∈ handleMessageStatusUpdated messageId status prev,
      m.id = messageId → m.status = status := by
  intro m hm hid
  unfold handleMessageStatusUpdated at hm
  rcases List.mem_map.1 hm with ⟨y, hy, hft⟩
  by_cases h : y.id = messageId
  · rw [← hft]
    simp [h]
  · rw [← hft] at hid
    simp [h] at hid

/-- Witness for C2 amended: the regressed entry carries the proposed status. -/
theorem statusUpdated_overwrites_witness :
    mkMsg "m3" "peer" "self" "t" 1 Status.sent ∈
        handleMessageStatusUpdated "m3" Status.sent
          [mkMsg "m3" "peer" "self" "t" 1 Status.read] ∧
    (mkMsg "m3" "peer" "self" "t" 1 Status.sent).status = Status.sent :=
  ⟨by decide,
   statusUpdated_overwrites "m3" Status.sent
     [mkMsg "m3" "peer" "self" "t" 1 Status.read]
     (mkMsg "m3" "peer" "self" "t" 1 Status.sent) (by decide) (by decide)⟩

/-- Counterexample to C3: receiving the same matching message twice appends it
twice — the timeline then holds two entries with that identifier. -/
theorem receiveMessage_duplicate_counterexample :
    ((handleReceiveMessage "peer" "self"
        (handleReceiveMessage "peer" "self" []
          (mkMsg "d1" "peer" "self" "hi" 1 Status.sent)).1
        (mkMsg "d1" "peer" "self" "hi" 1 Status.sent)).1.countP
          fun m => m.id == "d1") = 2 := by decide

/-- C3 amended: insertion is a plain append with no identity check — applying
the handler twice with the same matching message yields the old timeline with
that message appended twice. -/
theorem receiveMessage_append_twice (receiverId userId : String)
    (prev : List Message) (message : Message)
    (hacc : message.senderId = receiverId ∨ message.receiverId = receiverId) :
    (handleReceiveMessage receiverId userId
        (handleReceiveMessage receiverId userId prev message).1 message).1 =
      prev ++ [message, message] := by
  have h1 : (handleReceiveMessage receiverId userId prev message).1 =
      prev ++ [message] := by
    unfold handleReceiveMessage
    rw [if_pos hacc]
  rw [h1]
  unfold handleReceiveMessage
  rw [if_pos hacc]
  simp

/-- Witness for C3 amended on an initially empty timeline. -/
theorem receiveMessage_append_twice_witness :
    (handleReceiveMessage "peer" "self"
        (handleReceiveMessage "peer" "self" []
          (mkMsg "d2" "peer" "self" "hi" 1 Status.sent)).1
        (mkMsg "d2" "peer" "self" "hi" 1 Status.sent)).1 =
      [mkMsg "d2" "peer" "self" "hi" 1 Status.sent,
       mkMsg "d2" "peer" "self" "hi" 1 Status.sent] :=
  receiveMessage_append_twice "peer" "self" []
    (mkMsg "d2" "peer" "self" "hi" 1 Status.sent) (by decide)

/-- Counterexample to C4: two accepted messages arriving against timestamp
order leave the timeline unsorted under the timestamp-then-identifier order. -/
theorem timeline_unsorted_counterexample :
    ¬ timelineSorted
        ((handleReceiveMessage "peer" "self"
            (handleReceiveMessage "peer" "self" []
              (mkMsg "a" "peer" "self" "x" 5 Status.sent)).1
            (mkMsg "b" "peer" "self" "y" 3 Status.sent)).1) := by
  intro hs
  have hres : (handleReceiveMessage "peer" "self"
      (handleReceiveMessage "peer" "self" []
        (mkMsg "a" "peer" "self" "x" 5 Status.sent)).1
      (mkMsg "b" "peer" "self" "y" 3 Status.sent)).1 =
      [mkMsg "a" "peer" "self" "x" 5 Status.sent,
       mkMsg "b" "peer" "self" "y" 3 Status.sent] := by decide
  unfold timelineSorted at hs
  rw [hres, List.chain'_cons] at hs
  have h1 := hs.1
  unfold messageLE at h1
  rcases h1 with hlt | hpair
  · exact absurd hlt (by decide)
  · exact absurd hpair.1 (by decide)

/-- C4 amended: the timeline is kept in arrival order, not timestamp order —
an accepted message is appended at the end regardless of its creation
timestamp, and no re-sorting ever happens. -/
theorem receiveMessage_appends_at_end (receiverId userId : String)
    (prev : List Message) (message : Message)
    (hacc : message.senderId = receiverId ∨ message.receiverId = receiverId) :
    (handleReceiveMessage receiverId userId prev message).1 =
      prev ++ [message] := by
  unfold handleReceiveMessage
  rw [if_pos hacc]

/-- Witness for C4 amended: a message older than the last entry still lands at
the end. -/
theorem receiveMessage_appends_at_end_witness :
    (handleReceiveMessage "peer" "self"
        [mkMsg "a2" "peer" "self" "x" 5 Status.sent]
        (mkMsg "b2" "peer" "self" "y" 3 Status.sent)).1 =
      [mkMsg "a2" "peer" "self" "x" 5 Status.sent,
       mkMsg "b2" "peer" "self" "y" 3 Status.sent] :=
  receiveMessage_appends_at_end "peer" "self"
    [mkMsg "a2" "peer" "self" "x" 5 Status.sent]
    (mkMsg "b2" "peer" "self" "y" 3 Status.sent) (by decide)

end Chat
